import Mathlib

/-!
# Verification of the calendar availability engine

Shallow embedding of the slot-generation and conflict-detection logic of a
resource-scheduling application:

* `generateTimeSlotsForDay` and the day-range iterator of the calendar
  controller (`src/server/src/controllers/calendarController.ts`), and
* the conflict check of `createAssignment` and the merge semantics of
  `updateAssignment` / `StorageService.updateWorkAssignment`
  (assignment controller and storage service).

Modelling conventions:

* Instants are natural numbers counting minutes since the epoch
  (1970-01-01 00:00).  JavaScript `Date` values compare at millisecond
  precision; every boundary produced or compared by the engine is
  minute-aligned, so minute granularity is faithful for the engine logic.
* A calendar date is its day index (days since 1970-01-01); `dateOf`
  models `toDateString` equality, `getDay` models `Date.prototype.getDay`
  (1970-01-01 was a Thursday, JS weekday 4).
* `HH:MM` wall-clock strings appear already parsed as `(hour, minute)`
  pairs; the engine splits such a string into the two numbers before use
  and the parse itself is not part of any verified property.
* Fields the engine never reads (client name/phone/address, work type,
  comments, audit timestamps, admin email) are omitted from the records.
-/

namespace Calendar

/-- Status lifecycle of a work assignment (`"scheduled" | "completed" | "cancelled"`). -/
inductive AssignmentStatus where
  | scheduled
  | completed
  | cancelled
deriving DecidableEq, Repr

/-- Per-employee daily work-hours window; the source fields are the
`HH:MM` strings `workHours.start` and `workHours.end` (`end` is a Lean
keyword, hence `stop`). -/
structure WorkHours where
  start : Nat × Nat
  stop : Nat × Nat
deriving DecidableEq, Repr

/-- Employee record (engine-relevant fields of `Employee`). -/
structure Employee where
  id : String
  workHours : WorkHours
deriving DecidableEq, Repr

/-- Work assignment (engine-relevant fields of `WorkAssignment`);
`startTime`/`endTime` are instants in minutes. -/
structure WorkAssignment where
  id : String
  employeeId : String
  startTime : Nat
  endTime : Nat
  status : AssignmentStatus
deriving DecidableEq, Repr

/-- Global calendar settings (engine-relevant fields of `CalendarSettings`). -/
structure CalendarSettings where
  workStartTime : Nat × Nat
  workEndTime : Nat × Nat
  slotDuration : Nat
deriving DecidableEq, Repr

/-- Generated time slot (`TimeSlot`); `stop` is the source field `end`. -/
structure TimeSlot where
  start : Nat
  stop : Nat
  available : Bool
  employeeId : String
  assignmentId : Option String
deriving DecidableEq, Repr

/-- Minutes in one calendar day. -/
def minutesPerDay : Nat := 1440

/-- Calendar date (day index) of an instant; `dateOf s = dateOf t` models
`new Date(s).toDateString() === new Date(t).toDateString()`. -/
def dateOf (t : Nat) : Nat := t / minutesPerDay

/-- JS `Date.prototype.getDay` of a day index: 0 = Sunday, …, 6 = Saturday. -/
def getDay (day : Nat) : Nat := (day + 4) % 7

/-- `d.setHours(h, m, 0, 0)` on a copy of the midnight instant of `day`:
anchor an `(hour, minute)` wall-clock pair onto a calendar date. -/
def setHoursOn (day : Nat) (hm : Nat × Nat) : Nat :=
  day * minutesPerDay + hm.1 * 60 + hm.2

/-- The `dayAssignments` filter of `generateTimeSlotsForDay`: assignments of
this employee whose start instant falls on this calendar date and whose
status is `scheduled`. -/
def dayAssignments (empId : String) (day : Nat) (assignments : List WorkAssignment) :
    List WorkAssignment :=
  assignments.filter fun a =>
    decide (a.employeeId = empId) && decide (dateOf a.startTime = day)
      && decide (a.status = AssignmentStatus.scheduled)

/-- The per-slot conflict test of `generateTimeSlotsForDay`, for the candidate
slot `[s, e)` against one assignment. -/
def slotConflictsWith (s e : Nat) (a : WorkAssignment) : Bool :=
  (decide (s ≥ a.startTime) && decide (s < a.endTime))
    || (decide (e > a.startTime) && decide (e ≤ a.endTime))
    || (decide (s ≤ a.startTime) && decide (e ≥ a.endTime))

/-- The `while (currentTime < workEndTime)` loop of `generateTimeSlotsForDay`:
emit a slot of length `slotDuration` at every step, flag it occupied when some
day assignment overlaps it, and attach the id of the first day assignment
containing the slot start.  The loop advances by `slotDuration` minutes, so it
terminates exactly when the duration is positive. -/
def slotLoop (empId : String) (dayAsgs : List WorkAssignment)
    (slotDuration workEndTime : Nat) (hd : 0 < slotDuration)
    (currentTime : Nat) : List TimeSlot :=
  if _h : currentTime < workEndTime then
    let slotEnd := currentTime + slotDuration
    let hasConflict := dayAsgs.any (slotConflictsWith currentTime slotEnd)
    { start := currentTime
      stop := slotEnd
      available := !hasConflict
      employeeId := empId
      assignmentId :=
        if hasConflict then
          (dayAsgs.find? fun a =>
            decide (currentTime ≥ a.startTime) && decide (currentTime < a.endTime)).map
            (fun a => a.id)
        else none } ::
      slotLoop empId dayAsgs slotDuration workEndTime hd (currentTime + slotDuration)
  else []
termination_by workEndTime - currentTime
decreasing_by omega

/-- `generateTimeSlotsForDay date employee settings assignments`: anchors the
work window onto `date` from `settings.workStartTime` / `settings.workEndTime`
(as the source does), filters the employee's same-day `scheduled` assignments,
and walks the window in `settings.slotDuration`-minute steps. -/
def generateTimeSlotsForDay (date : Nat) (employee : Employee)
    (settings : CalendarSettings) (assignments : List WorkAssignment)
    (hd : 0 < settings.slotDuration) : List TimeSlot :=
  let workStartTime := setHoursOn date settings.workStartTime
  let workEndTime := setHoursOn date settings.workEndTime
  slotLoop employee.id (dayAssignments employee.id date assignments)
    settings.slotDuration workEndTime hd workStartTime

/-- Modelled from the spec: the slot generator as §4.1 describes it, anchoring
`workStartTime`/`workEndTime` from the employee's own work-hours strings and
consulting only `slotDuration` of the global settings. -/
def generateTimeSlotsForDaySpec (date : Nat) (employee : Employee)
    (settings : CalendarSettings) (assignments : List WorkAssignment)
    (hd : 0 < settings.slotDuration) : List TimeSlot :=
  let workStartTime := setHoursOn date employee.workHours.start
  let workEndTime := setHoursOn date employee.workHours.stop
  slotLoop employee.id (dayAssignments employee.id date assignments)
    settings.slotDuration workEndTime hd workStartTime

/-- The day-range loop of `getTimeSlots`: walk `current` from the start day
while `current ≤ endDay`, skip Saturdays and Sundays, and concatenate the
slots of every target employee on each remaining day. -/
def dayLoop (employees : List Employee) (assignments : List WorkAssignment)
    (settings : CalendarSettings) (employeeId : Option String)
    (hd : 0 < settings.slotDuration) (endDay : Nat) (current : Nat) : List TimeSlot :=
  if h : current ≤ endDay then
    (if getDay current ≠ 0 ∧ getDay current ≠ 6 then
      let targetEmployees :=
        match employeeId with
        | some eid => employees.filter fun (emp : Employee) => decide (emp.id = eid)
        | none => employees
      (targetEmployees.map fun employee =>
        generateTimeSlotsForDay current employee settings assignments hd).flatten
    else []) ++ dayLoop employees assignments settings employeeId hd endDay (current + 1)
  else []
termination_by endDay + 1 - current
decreasing_by omega

/-- The pure core of `getTimeSlots` (the spec's `computeTimeSlots`): expand
the inclusive day range `[startDay, endDay]` with `dayLoop`. -/
def computeTimeSlots (employees : List Employee) (assignments : List WorkAssignment)
    (settings : CalendarSettings) (startDay endDay : Nat) (employeeId : Option String)
    (hd : 0 < settings.slotDuration) : List TimeSlot :=
  dayLoop employees assignments settings employeeId hd endDay startDay

/-- The creation-time conflict check of `createAssignment`: some existing
assignment of the same employee with status `scheduled` overlaps the proposed
interval `[startTime, endTime)` under the three-clause test. -/
def hasConflict (employeeId : String) (startTime endTime : Nat)
    (assignments : List WorkAssignment) : Bool :=
  assignments.any fun a =>
    decide (a.employeeId = employeeId) && decide (a.status = AssignmentStatus.scheduled)
      && ((decide (startTime ≥ a.startTime) && decide (startTime < a.endTime))
        || (decide (endTime > a.startTime) && decide (endTime ≤ a.endTime))
        || (decide (startTime ≤ a.startTime) && decide (endTime ≥ a.endTime)))

/-- The three-clause half-open overlap test shared by both call sites
(slot generation and `createAssignment`), on bare interval endpoints. -/
def overlapThreeClause (s e as ae : Nat) : Bool :=
  (decide (s ≥ as) && decide (s < ae))
    || (decide (e > as) && decide (e ≤ ae))
    || (decide (s ≤ as) && decide (e ≥ ae))

/-- The spec's simpler single-inequality overlap formulation `s < ae && e > as`. -/
def overlapSimple (s e as ae : Nat) : Bool :=
  decide (s < ae) && decide (e > as)

/-- Partial update payload of `updateAssignment` (engine-relevant fields of
`UpdateWorkAssignmentRequest`); `none` means the field is absent from the
request body. -/
structure UpdateRequest where
  employeeId : Option String := none
  startTime : Option Nat := none
  endTime : Option Nat := none
  status : Option AssignmentStatus := none
deriving DecidableEq, Repr

/-- The spread-merge `{ ...assignment, ...updates }` of
`StorageService.updateWorkAssignment` restricted to the engine-relevant fields
(the id is taken from the route parameter and not overwritten). -/
def applyUpdates (a : WorkAssignment) (u : UpdateRequest) : WorkAssignment :=
  { a with
    employeeId := u.employeeId.getD a.employeeId
    startTime := u.startTime.getD a.startTime
    endTime := u.endTime.getD a.endTime
    status := u.status.getD a.status }

/-- `StorageService.updateWorkAssignment`: find the assignment with the given
id; `none` (the source's `null`, a 404 in the controller) when absent,
otherwise merge the updates into it in place and return the updated record
together with the new assignment list.  No conflict check is performed. -/
def updateWorkAssignment (id : String) (u : UpdateRequest) :
    List WorkAssignment → Option (WorkAssignment × List WorkAssignment)
  | [] => none
  | a :: rest =>
    if a.id = id then
      some (applyUpdates a u, applyUpdates a u :: rest)
    else
      (updateWorkAssignment id u rest).map fun p => (p.1, a :: p.2)

/-! ## Unfolding and structure lemmas for the slot loop -/

/-- The slot loop emits nothing when the window start is not before its end. -/
theorem slotLoop_eq_nil (empId : String) (A : List WorkAssignment) (d we : Nat)
    (hd : 0 < d) (ws : Nat) (h : we ≤ ws) : slotLoop empId A d we hd ws = [] := by
  rw [slotLoop]
  simp [Nat.not_lt.mpr h]

/-- One unfolding step of the slot loop below the window end. -/
theorem slotLoop_eq_cons (empId : String) (A : List WorkAssignment) (d we : Nat)
    (hd : 0 < d) (ws : Nat) (h : ws < we) :
    slotLoop empId A d we hd ws =
      { start := ws, stop := ws + d,
        available := !(A.any (slotConflictsWith ws (ws + d))),
        employeeId := empId,
        assignmentId :=
          if A.any (slotConflictsWith ws (ws + d)) then
            (A.find? fun a => decide (ws ≥ a.startTime) && decide (ws < a.endTime)).map
              (fun a => a.id)
          else none } :: slotLoop empId A d we hd (ws + d) := by
  rw [slotLoop]
  simp [h]

/-- The `i`-th emitted slot starts at `ws + i·d`, ends one duration later, and
starts strictly before the window end. -/
theorem slotLoop_getElem (empId : String) (A : List WorkAssignment) (d we : Nat)
    (hd : 0 < d) :
    ∀ (i ws : Nat) (slot : TimeSlot), (slotLoop empId A d we hd ws)[i]? = some slot →
      slot.start = ws + i * d ∧ slot.stop = ws + i * d + d ∧ ws + i * d < we := by
  intro i
  induction i with
  | zero =>
    intro ws slot h
    by_cases hw : ws < we
    · rw [slotLoop_eq_cons empId A d we hd ws hw] at h
      simp at h
      subst h
      simp [hw]
    · rw [slotLoop_eq_nil empId A d we hd ws (Nat.not_lt.mp hw)] at h
      simp at h
  | succ i ih =>
    intro ws slot h
    by_cases hw : ws < we
    · rw [slotLoop_eq_cons empId A d we hd ws hw] at h
      simp only [List.getElem?_cons_succ] at h
      have hih := ih (ws + d) slot h
      simp only [Nat.succ_mul] at *
      omega
    · rw [slotLoop_eq_nil empId A d we hd ws (Nat.not_lt.mp hw)] at h
      simp at h

/-- Coverage: the emitted slots reach at least up to the window end. -/
theorem slotLoop_coverage (empId : String) (A : List WorkAssignment) (d we : Nat)
    (hd : 0 < d) (ws : Nat) : we ≤ ws + (slotLoop empId A d we hd ws).length * d := by
  by_cases hw : ws < we
  · have hrec := slotLoop_coverage empId A d we hd (ws + d)
    rw [slotLoop_eq_cons empId A d we hd ws hw]
    simp only [List.length_cons, Nat.succ_mul]
    omega
  · rw [slotLoop_eq_nil empId A d we hd ws (Nat.not_lt.mp hw)]
    simp
    omega
termination_by we - ws

/-- A strictly positive window emits at least one slot. -/
theorem slotLoop_ne_nil (empId : String) (A : List WorkAssignment) (d we : Nat)
    (hd : 0 < d) (ws : Nat) (h : ws < we) : slotLoop empId A d we hd ws ≠ [] := by
  rw [slotLoop_eq_cons empId A d we hd ws h]
  simp

/-- Every member of the slot-loop output is the slot record built by the loop
body at some start instant. -/
theorem slotLoop_mem_shape (empId : String) (A : List WorkAssignment) (d we : Nat)
    (hd : 0 < d) (ws : Nat) (slot : TimeSlot)
    (hmem : slot ∈ slotLoop empId A d we hd ws) :
    ∃ s : Nat,
      slot = { start := s, stop := s + d,
               available := !(A.any (slotConflictsWith s (s + d))),
               employeeId := empId,
               assignmentId :=
                 if A.any (slotConflictsWith s (s + d)) then
                   (A.find? fun a =>
                     decide (s ≥ a.startTime) && decide (s < a.endTime)).map
                     (fun a => a.id)
                 else none } := by
  by_cases hw : ws < we
  · rw [slotLoop_eq_cons empId A d we hd ws hw] at hmem
    rcases List.mem_cons.mp hmem with h | h
    · exact ⟨ws, h⟩
    · exact slotLoop_mem_shape empId A d we hd (ws + d) slot h
  · rw [slotLoop_eq_nil empId A d we hd ws (Nat.not_lt.mp hw)] at hmem
    simp at hmem
termination_by we - ws

/-! ## Claim C2 — creation-time conflict check -/

/-- C2: the creation-time conflict check reports a conflict iff some existing
assignment of the same employee with status `scheduled` overlaps the proposed
half-open interval under the three-clause rule; in particular partial overlap
(`[08:30,09:30)` vs `[09:00,10:00)`) and containment (`[09:00,11:00)` vs
`[09:30,10:00)`) conflict while adjacency (`[10:00,11:00)` vs `[09:00,10:00)`)
does not. -/
theorem create_conflict_iff_overlap :
    (∀ (eid : String) (s e : Nat) (asgs : List WorkAssignment),
      hasConflict eid s e asgs = true ↔
        ∃ a ∈ asgs, a.employeeId = eid ∧ a.status = AssignmentStatus.scheduled ∧
          ((a.startTime ≤ s ∧ s < a.endTime) ∨ (a.startTime < e ∧ e ≤ a.endTime) ∨
            (s ≤ a.startTime ∧ a.endTime ≤ e))) ∧
    hasConflict "e1" 510 570 [⟨"a1", "e1", 540, 600, AssignmentStatus.scheduled⟩] = true ∧
    hasConflict "e1" 540 660 [⟨"a1", "e1", 570, 600, AssignmentStatus.scheduled⟩] = true ∧
    hasConflict "e1" 600 660 [⟨"a1", "e1", 540, 600, AssignmentStatus.scheduled⟩] = false := by
  refine ⟨?_, by decide, by decide, by decide⟩
  intro eid s e asgs
  simp [hasConflict, List.any_eq_true, and_assoc, or_assoc]

/-! ## Claim C4 — equivalence of the two overlap formulations -/

/-- C4: for non-degenerate intervals the three-clause overlap test agrees with
the single inequality `s < ae && e > as`, and it is the very test used by the
slot-generation and assignment-creation call sites. -/
theorem three_clause_overlap_equiv (s e as ae : Nat) (hse : s < e) (hint : as < ae) :
    overlapThreeClause s e as ae = overlapSimple s e as ae ∧
    (∀ a : WorkAssignment,
      slotConflictsWith s e a = overlapThreeClause s e a.startTime a.endTime) ∧
    (∀ (eid : String) (a : WorkAssignment),
      hasConflict eid s e [a] =
        (decide (a.employeeId = eid) && decide (a.status = AssignmentStatus.scheduled)
          && overlapThreeClause s e a.startTime a.endTime)) := by
  refine ⟨?_, fun a => rfl, fun eid a => by simp [hasConflict, overlapThreeClause]⟩
  simp only [overlapThreeClause, overlapSimple]
  rw [Bool.eq_iff_iff]
  simp only [Bool.or_eq_true, Bool.and_eq_true, decide_eq_true_eq]
  omega

/-- Witness for C4 at the concrete intervals `[510,570)` and `[540,600)`. -/
theorem three_clause_overlap_equiv_witness :
    510 < 570 ∧ 540 < 600 ∧
    overlapThreeClause 510 570 540 600 = overlapSimple 510 570 540 600 ∧
    slotConflictsWith 510 570 ⟨"a1", "e1", 540, 600, AssignmentStatus.scheduled⟩
      = overlapThreeClause 510 570 540 600 := by
  have h := three_clause_overlap_equiv 510 570 540 600 (by norm_num) (by norm_num)
  exact ⟨by norm_num, by norm_num, h.1, h.2.1 ⟨"a1", "e1", 540, 600, AssignmentStatus.scheduled⟩⟩

/-! ## Claim C3 — slot partition structure -/

/-- C3: over a work window `[ws, we)` with `ws < we` the loop emits slots
starting at `ws + i·d` (no gaps, strictly increasing), each ending one
duration after its start, every start strictly before `we`, with the emitted
slots covering the window (`we ≤ ws + n·d`, so the final partial slot is
emitted and may extend past `we`); a zero-length or inverted window emits
nothing. -/
theorem slot_partition (empId : String) (dayAsgs : List WorkAssignment)
    (d we ws : Nat) (hd : 0 < d) :
    (ws < we →
      slotLoop empId dayAsgs d we hd ws ≠ [] ∧
      (∀ (i : Nat) (slot : TimeSlot), (slotLoop empId dayAsgs d we hd ws)[i]? = some slot →
        slot.start = ws + i * d ∧ slot.stop = slot.start + d ∧ slot.start < we) ∧
      we ≤ ws + (slotLoop empId dayAsgs d we hd ws).length * d) ∧
    (we ≤ ws → slotLoop empId dayAsgs d we hd ws = []) := by
  constructor
  · intro hlt
    refine ⟨slotLoop_ne_nil empId dayAsgs d we hd ws hlt, ?_,
      slotLoop_coverage empId dayAsgs d we hd ws⟩
    intro i slot h
    obtain ⟨h1, h2, h3⟩ := slotLoop_getElem empId dayAsgs d we hd i ws slot h
    refine ⟨h1, ?_, ?_⟩
    · rw [h2, h1]
    · rw [h1]; exact h3
  · exact slotLoop_eq_nil empId dayAsgs d we hd ws

/-- Witness for C3 on the 30-minute window `[480, 510)` with 60-minute slots. -/
theorem slot_partition_witness :
    0 < 60 ∧ 480 < 510 ∧
    slotLoop "e1" [] 60 510 (by norm_num) 480 ≠ [] ∧
    510 ≤ 480 + (slotLoop "e1" [] 60 510 (by norm_num) 480).length * 60 := by
  have h := (slot_partition "e1" [] 60 510 480 (by norm_num)).1 (by norm_num)
  exact ⟨by norm_num, by norm_num, h.1, h.2.2⟩

/-! ## Claim C8 — inverted date range -/

/-- C8: when the end day precedes the start day the day loop never runs and
the computation returns the empty slot list, with no error, for any
employees, assignments and settings. -/
theorem inverted_range_empty (emps : List Employee) (asgs : List WorkAssignment)
    (stg : CalendarSettings) (filt : Option String) (hd : 0 < stg.slotDuration)
    (startDay endDay : Nat) (h : endDay < startDay) :
    computeTimeSlots emps asgs stg startDay endDay filt hd = [] := by
  unfold computeTimeSlots
  rw [dayLoop.eq_def]
  simp [Nat.not_le.mpr h]

/-- Witness for C8 on the inverted range day 5 down to day 3. -/
theorem inverted_range_empty_witness :
    3 < 5 ∧ computeTimeSlots [⟨"e1", ⟨(8, 0), (16, 0)⟩⟩] []
      ⟨(8, 0), (16, 0), 60⟩ 5 3 none (by norm_num) = [] :=
  ⟨by norm_num, inverted_range_empty [⟨"e1", ⟨(8, 0), (16, 0)⟩⟩] []
    ⟨(8, 0), (16, 0), 60⟩ none (by norm_num) 5 3 (by norm_num)⟩

/-! ## Claim C5 — cancelled/completed assignments never participate -/

/-- C5: an assignment whose status is not `scheduled` never changes slot
generation and never blocks a new booking: prepending it to the assignment
list leaves both the generated day slots and the creation-time conflict check
unchanged. -/
theorem status_exclusion (a : WorkAssignment)
    (hs : a.status ≠ AssignmentStatus.scheduled) :
    (∀ (date : Nat) (emp : Employee) (stg : CalendarSettings)
        (asgs : List WorkAssignment) (hd : 0 < stg.slotDuration),
      generateTimeSlotsForDay date emp stg (a :: asgs) hd
        = generateTimeSlotsForDay date emp stg asgs hd) ∧
    (∀ (eid : String) (s e : Nat) (asgs : List WorkAssignment),
      hasConflict eid s e (a :: asgs) = hasConflict eid s e asgs) := by
  constructor
  · intro date emp stg asgs hd
    unfold generateTimeSlotsForDay
    rw [show dayAssignments emp.id date (a :: asgs) = dayAssignments emp.id date asgs from by
      simp [dayAssignments, List.filter_cons, hs]]
  · intro eid s e asgs
    simp [hasConflict, List.any_cons, hs]

/-- Witness for C5: a cancelled assignment exactly matching the slot `[480,540)`
neither occupies it nor blocks a booking of the same window. -/
theorem status_exclusion_witness :
    (⟨"a1", "e1", 480, 540, AssignmentStatus.cancelled⟩ : WorkAssignment).status
        ≠ AssignmentStatus.scheduled ∧
    generateTimeSlotsForDay 0 ⟨"e1", ⟨(8, 0), (9, 0)⟩⟩ ⟨(8, 0), (9, 0), 60⟩
        [⟨"a1", "e1", 480, 540, AssignmentStatus.cancelled⟩] (by norm_num)
      = generateTimeSlotsForDay 0 ⟨"e1", ⟨(8, 0), (9, 0)⟩⟩ ⟨(8, 0), (9, 0), 60⟩ [] (by norm_num) ∧
    hasConflict "e1" 480 540 [⟨"a1", "e1", 480, 540, AssignmentStatus.cancelled⟩]
      = hasConflict "e1" 480 540 [] := by
  have h := status_exclusion ⟨"a1", "e1", 480, 540, AssignmentStatus.cancelled⟩ (by decide)
  exact ⟨by decide, h.1 0 ⟨"e1", ⟨(8, 0), (9, 0)⟩⟩ ⟨(8, 0), (9, 0), 60⟩ [] (by norm_num),
    h.2 "e1" 480 540 []⟩

/-! ## Claim C10 — day scoping by the assignment's start date -/

/-- C10: an assignment participates in a day's occupancy only if the calendar
date of its start instant equals the queried day; otherwise prepending it
leaves that day's slots unchanged, so an assignment spilling past midnight
never occupies the following day. -/
theorem same_day_scoping (a : WorkAssignment) (date : Nat)
    (hdate : dateOf a.startTime ≠ date) :
    ∀ (emp : Employee) (stg : CalendarSettings) (asgs : List WorkAssignment)
      (hd : 0 < stg.slotDuration),
      generateTimeSlotsForDay date emp stg (a :: asgs) hd
        = generateTimeSlotsForDay date emp stg asgs hd := by
  intro emp stg asgs hd
  unfold generateTimeSlotsForDay
  rw [show dayAssignments emp.id date (a :: asgs) = dayAssignments emp.id date asgs from by
    simp [dayAssignments, List.filter_cons, hdate]]

/-- Witness for C10: an assignment running 23:00 of day 0 to 01:00 of day 1
never occupies day 1's slots. -/
theorem same_day_scoping_witness :
    dateOf (⟨"a1", "e1", 1380, 1500, AssignmentStatus.scheduled⟩ : WorkAssignment).startTime ≠ 1 ∧
    generateTimeSlotsForDay 1 ⟨"e1", ⟨(0, 0), (1, 0)⟩⟩ ⟨(0, 0), (1, 0), 60⟩
        [⟨"a1", "e1", 1380, 1500, AssignmentStatus.scheduled⟩] (by norm_num)
      = generateTimeSlotsForDay 1 ⟨"e1", ⟨(0, 0), (1, 0)⟩⟩ ⟨(0, 0), (1, 0), 60⟩ [] (by norm_num) :=
  ⟨by decide, same_day_scoping ⟨"a1", "e1", 1380, 1500, AssignmentStatus.scheduled⟩ 1 (by decide)
    ⟨"e1", ⟨(0, 0), (1, 0)⟩⟩ ⟨(0, 0), (1, 0), 60⟩ [] (by norm_num)⟩

/-! ## Claim C6 — weekend exclusion -/

/-- Helper for the weekend-exclusion claim: the day loop yields nothing when
every day left in the range is a Saturday or a Sunday. -/
theorem dayLoop_weekend_nil (emps : List Employee) (asgs : List WorkAssignment)
    (stg : CalendarSettings) (filt : Option String) (hd : 0 < stg.slotDuration)
    (endDay current : Nat)
    (hwk : ∀ d2, current ≤ d2 → d2 ≤ endDay → getDay d2 = 0 ∨ getDay d2 = 6) :
    dayLoop emps asgs stg filt hd endDay current = [] := by
  by_cases h : current ≤ endDay
  · have hrec := dayLoop_weekend_nil emps asgs stg filt hd endDay (current + 1)
      (fun d2 h1 h2 => hwk d2 (by omega) h2)
    have hcur := hwk current le_rfl h
    rw [dayLoop.eq_def]
    rcases hcur with h0 | h6
    · simp [h, hrec, h0]
    · simp [h, hrec, h6]
  · rw [dayLoop.eq_def]
    simp [h]
termination_by endDay + 1 - current

/-- C6: a day contributes slots only when its weekday is neither Saturday nor
Sunday; a range consisting of weekend days only yields the empty slot list for
any employees, assignments and settings. -/
theorem weekend_exclusion (startDay endDay : Nat)
    (hwk : ∀ d2, startDay ≤ d2 → d2 ≤ endDay → getDay d2 = 0 ∨ getDay d2 = 6) :
    ∀ (emps : List Employee) (asgs : List WorkAssignment) (stg : CalendarSettings)
      (filt : Option String) (hd : 0 < stg.slotDuration),
      computeTimeSlots emps asgs stg startDay endDay filt hd = [] :=
  fun emps asgs stg filt hd =>
    dayLoop_weekend_nil emps asgs stg filt hd endDay startDay hwk

/-- Witness for C6: days 2 and 3 after the epoch are a Saturday and a Sunday
and produce no slots. -/
theorem weekend_exclusion_witness :
    getDay 2 = 6 ∧ getDay 3 = 0 ∧
    computeTimeSlots [⟨"e1", ⟨(8, 0), (16, 0)⟩⟩] [] ⟨(8, 0), (16, 0), 60⟩ 2 3 none
      (by norm_num) = [] := by
  refine ⟨by decide, by decide, weekend_exclusion 2 3 ?_ [⟨"e1", ⟨(8, 0), (16, 0)⟩⟩] []
    ⟨(8, 0), (16, 0), 60⟩ none (by norm_num)⟩
  intro d2 h1 h2
  simp only [getDay]
  omega

/-! ## Claim C1 — which record anchors the work window -/

/-- Counterexample to C1: with employee work hours `08:00–10:00` and global
settings window `12:00–13:00`, the generator output differs from the
spec-described employee-anchored generator — the code anchors the window from
the global settings, not from the employee record. -/
theorem employee_window_counterexample :
    generateTimeSlotsForDay 0 ⟨"e1", ⟨(8, 0), (10, 0)⟩⟩ ⟨(12, 0), (13, 0), 60⟩ [] (by norm_num)
      ≠ generateTimeSlotsForDaySpec 0 ⟨"e1", ⟨(8, 0), (10, 0)⟩⟩ ⟨(12, 0), (13, 0), 60⟩ []
        (by norm_num) := by
  simp [generateTimeSlotsForDay, generateTimeSlotsForDaySpec, slotLoop, dayAssignments,
    setHoursOn, minutesPerDay]

/-- C1 (amended): the slot generator anchors the day's window from the global
settings `workStartTime`/`workEndTime` and ignores the employee's own
work-hours record (only the employee id is consulted); in particular, whenever
the employee's window happens to equal the settings window, its output
coincides with the spec-described employee-anchored generator. -/
theorem settings_window_anchoring :
    (∀ (date : Nat) (id : String) (wh wh' : WorkHours) (stg : CalendarSettings)
        (asgs : List WorkAssignment) (hd : 0 < stg.slotDuration),
      generateTimeSlotsForDay date ⟨id, wh⟩ stg asgs hd
        = generateTimeSlotsForDay date ⟨id, wh'⟩ stg asgs hd) ∧
    (∀ (date : Nat) (emp : Employee) (stg : CalendarSettings)
        (asgs : List WorkAssignment) (hd : 0 < stg.slotDuration),
      emp.workHours.start = stg.workStartTime →
      emp.workHours.stop = stg.workEndTime →
      generateTimeSlotsForDay date emp stg asgs hd
        = generateTimeSlotsForDaySpec date emp stg asgs hd) := by
  constructor
  · intro _ _ _ _ _ _ _
    rfl
  · intro date emp stg asgs hd h1 h2
    unfold generateTimeSlotsForDay generateTimeSlotsForDaySpec
    rw [h1, h2]

/-- Witness for the amended C1 at concrete employees and settings. -/
theorem settings_window_anchoring_witness :
    generateTimeSlotsForDay 0 ⟨"e1", ⟨(8, 0), (10, 0)⟩⟩ ⟨(12, 0), (13, 0), 60⟩ [] (by norm_num)
      = generateTimeSlotsForDay 0 ⟨"e1", ⟨(7, 30), (22, 0)⟩⟩ ⟨(12, 0), (13, 0), 60⟩ []
        (by norm_num) ∧
    generateTimeSlotsForDay 0 ⟨"e1", ⟨(12, 0), (13, 0)⟩⟩ ⟨(12, 0), (13, 0), 60⟩ [] (by norm_num)
      = generateTimeSlotsForDaySpec 0 ⟨"e1", ⟨(12, 0), (13, 0)⟩⟩ ⟨(12, 0), (13, 0), 60⟩ []
        (by norm_num) :=
  ⟨settings_window_anchoring.1 0 "e1" ⟨(8, 0), (10, 0)⟩ ⟨(7, 30), (22, 0)⟩
      ⟨(12, 0), (13, 0), 60⟩ [] (by norm_num),
    settings_window_anchoring.2 0 ⟨"e1", ⟨(12, 0), (13, 0)⟩⟩ ⟨(12, 0), (13, 0), 60⟩ []
      (by norm_num) rfl rfl⟩

/-! ## Claim C7 — updates are not conflict-checked -/

/-- Counterexample to C7: moving assignment `a2` onto the same window as the
scheduled assignment `a1` of the same employee succeeds — the update pipeline
performs no conflict check, although the engine's own creation-time check
flags the resulting interval as conflicting. -/
theorem update_conflict_counterexample :
    updateWorkAssignment "a2" { startTime := some 540 }
        [⟨"a1", "e1", 540, 600, AssignmentStatus.scheduled⟩,
         ⟨"a2", "e1", 600, 660, AssignmentStatus.scheduled⟩]
      = some (⟨"a2", "e1", 540, 660, AssignmentStatus.scheduled⟩,
          [⟨"a1", "e1", 540, 600, AssignmentStatus.scheduled⟩,
           ⟨"a2", "e1", 540, 660, AssignmentStatus.scheduled⟩]) ∧
    hasConflict "e1" 540 660 [⟨"a1", "e1", 540, 600, AssignmentStatus.scheduled⟩] = true :=
  ⟨by decide, by decide⟩

/-- C7 (amended): the update pipeline performs no conflict detection at all —
an update succeeds exactly when an assignment with the given id exists,
regardless of any overlap the new interval creates; only creation is
conflict-checked. -/
theorem update_no_conflict_check (id : String) (u : UpdateRequest) :
    ∀ asgs : List WorkAssignment,
      (updateWorkAssignment id u asgs).isSome = true ↔ ∃ a ∈ asgs, a.id = id := by
  intro asgs
  induction asgs with
  | nil => simp [updateWorkAssignment]
  | cons a rest ih =>
    by_cases h : a.id = id
    · simp [updateWorkAssignment, h]
    · have hmap : (updateWorkAssignment id u (a :: rest)).isSome
          = (updateWorkAssignment id u rest).isSome := by
        simp only [updateWorkAssignment, h, if_false]
        cases updateWorkAssignment id u rest <;> rfl
      rw [hmap, ih]
      constructor
      · rintro ⟨x, hx, hid⟩
        exact ⟨x, List.mem_cons_of_mem a hx, hid⟩
      · rintro ⟨x, hx, hid⟩
        rcases List.mem_cons.mp hx with rfl | hx2
        · exact absurd hid h
        · exact ⟨x, hx2, hid⟩

/-! ## Claim C9 — occupying-assignment identifier -/

/-- C9: an available slot carries no assignment id; an unavailable slot
carries the id of the first same-day scheduled assignment whose interval
contains the slot's start instant, and hence carries no id at all when it is
occupied only through the other two overlap clauses. -/
theorem slot_assignment_id (date : Nat) (emp : Employee) (stg : CalendarSettings)
    (asgs : List WorkAssignment) (hd : 0 < stg.slotDuration) (slot : TimeSlot)
    (hmem : slot ∈ generateTimeSlotsForDay date emp stg asgs hd) :
    (slot.available = true → slot.assignmentId = none) ∧
    (slot.available = false →
      slot.assignmentId =
        ((dayAssignments emp.id date asgs).find? fun a =>
          decide (slot.start ≥ a.startTime) && decide (slot.start < a.endTime)).map
          (fun a => a.id)) ∧
    (slot.available = false →
      (∀ a ∈ dayAssignments emp.id date asgs,
        ¬(a.startTime ≤ slot.start ∧ slot.start < a.endTime)) →
      slot.assignmentId = none) := by
  unfold generateTimeSlotsForDay at hmem
  obtain ⟨s, rfl⟩ := slotLoop_mem_shape emp.id (dayAssignments emp.id date asgs)
    stg.slotDuration (setHoursOn date stg.workEndTime) hd (setHoursOn date stg.workStartTime)
    _ hmem
  by_cases hc :
      (dayAssignments emp.id date asgs).any (slotConflictsWith s (s + stg.slotDuration))
  · refine ⟨by simp [hc], fun _ => by simp [hc], fun _ hnone => ?_⟩
    simp only [hc, if_true]
    rw [List.find?_eq_none.mpr]
    · rfl
    · intro a ha
      have hna := hnone a ha
      dsimp only at hna
      simp only [Bool.and_eq_true, decide_eq_true_eq, ge_iff_le]
      omega
  · simp [hc]

/-- Witness for C9: a slot occupied only by a strictly contained assignment is
unavailable yet carries no occupying-assignment id. -/
theorem slot_assignment_id_witness :
    (⟨480, 540, false, "e1", none⟩ : TimeSlot) ∈
      generateTimeSlotsForDay 0 ⟨"e1", ⟨(8, 0), (9, 0)⟩⟩ ⟨(8, 0), (9, 0), 60⟩
        [⟨"a1", "e1", 490, 500, AssignmentStatus.scheduled⟩] (by norm_num) ∧
    (⟨480, 540, false, "e1", none⟩ : TimeSlot).assignmentId = none := by
  have hmem : (⟨480, 540, false, "e1", none⟩ : TimeSlot) ∈
      generateTimeSlotsForDay 0 ⟨"e1", ⟨(8, 0), (9, 0)⟩⟩ ⟨(8, 0), (9, 0), 60⟩
        [⟨"a1", "e1", 490, 500, AssignmentStatus.scheduled⟩] (by norm_num) := by
    simp [generateTimeSlotsForDay, slotLoop, dayAssignments, setHoursOn, minutesPerDay,
      slotConflictsWith, dateOf]
  refine ⟨hmem, ?_⟩
  exact (slot_assignment_id 0 ⟨"e1", ⟨(8, 0), (9, 0)⟩⟩ ⟨(8, 0), (9, 0), 60⟩
    [⟨"a1", "e1", 490, 500, AssignmentStatus.scheduled⟩] (by norm_num) _ hmem).2.2 rfl
    (by decide)

end Calendar
